import Mathlib

/-!
# Verification of the toolkit Redis message bus (pkg/bus)

Shallow embedding of the Go package `bus` of PavelRadostev/toolkit:
the transport envelope (`TransportRequest`, `TransportResponse`), the
flat broker serializer (`RedisBrokerSerialize`), the two-dialect ingress
decoder (`Bus.deserializeMessage`), the response dispatch
(`Bus.processMessage` / `Bus.sendResponse`), `Bus.Execute`'s envelope
construction, the bus lifecycle (`NewBus` / `Stop`), and the consumer
read loop (`Bus.processStream`).

Modelling conventions:
* Go strings and `[]byte` values both denote byte sequences and are both
  modelled as Lean `String` (a Go `string(b)` / `[]byte(s)` conversion is
  the identity on contents).
* Go `int` is modelled as `Int` (the values involved — 0, 1, 300, 30 — are
  far from the 64-bit bounds, so unbounded integers are faithful).
* The `float64` field `CreatedTimestamp` is modelled as an exact numeric
  scalar (`Int`).  Its wire codec, `strconv.FormatFloat(f, 'f', -1, 64)` /
  `strconv.ParseFloat(v, 64)`, round-trips every float64 exactly (the
  `-1` precision produces the shortest string that parses back to the
  same value, per the strconv documentation); it is modelled by the exact
  decimal integer codec `itoa` / `atoi` below.  No claim depends on
  fractional timestamps; only the sign test `> 0`, the zero default and
  codec exactness matter.
* CBOR blobs are modelled at the item level by the inductive `CborVal`;
  a blob on the wire is the (injective) CBOR encoding of its item.
-/

namespace Toolkit

/-! ## Decimal integer codec: strconv.Itoa / strconv.Atoi -/

/-- The ASCII character of a decimal digit (`'0' + d` for `d < 10`). -/
def digitChar (d : Nat) : Char := Char.ofNat (48 + d)

/-- The decimal value of an ASCII digit character, if it is one. -/
def charDigit (c : Char) : Option Nat :=
  if 48 ≤ c.toNat ∧ c.toNat ≤ 57 then some (c.toNat - 48) else none

/-- Base-10 digits, least significant first, by fuel-bounded structural
recursion (so that concrete values reduce inside the kernel). -/
def toDigitsRev (fuel n : Nat) : List Nat :=
  match fuel with
  | 0 => []
  | f + 1 => if n = 0 then [] else n % 10 :: toDigitsRev f (n / 10)

/-- Base-10 digits of `n`, least significant first. -/
def natDigits10 (n : Nat) : List Nat := toDigitsRev n n

theorem toDigitsRev_eq_digits (fuel n : Nat) (h : n ≤ fuel) :
    toDigitsRev fuel n = Nat.digits 10 n := by
  induction fuel generalizing n with
  | zero =>
    have : n = 0 := Nat.le_zero.mp h
    subst this; simp [toDigitsRev]
  | succ f ih =>
    by_cases hn : n = 0
    · subst hn; simp [toDigitsRev]
    · have hdiv : n / 10 ≤ f := by
        have : n / 10 < n := Nat.div_lt_self (Nat.pos_of_ne_zero hn) (by norm_num)
        omega
      rw [toDigitsRev, if_neg hn, ih _ hdiv,
        Nat.digits_def' (b := 10) (by norm_num) (Nat.pos_of_ne_zero hn)]

theorem natDigits10_eq (n : Nat) : natDigits10 n = Nat.digits 10 n :=
  toDigitsRev_eq_digits n n le_rfl

/-- Decimal digit characters of a natural number, most significant first;
`0` renders as `"0"` (strconv.Itoa behaviour). -/
def itoaCharsNat (n : Nat) : List Char :=
  if n = 0 then ['0'] else ((natDigits10 n).map digitChar).reverse

/-- Digit values of a character list, failing on any non-digit. -/
def traverseDigits : List Char → Option (List Nat)
  | [] => some []
  | c :: rest =>
    match charDigit c, traverseDigits rest with
    | some d, some ds => some (d :: ds)
    | _, _ => none

/-- Parse a run of decimal digit characters (most significant first) as a
natural number; any non-digit character fails. -/
def parseDigits (cs : List Char) : Option Nat :=
  (traverseDigits cs).map (fun ds => Nat.ofDigits 10 ds.reverse)

/-- Model of `strconv.Atoi` on a character list: an optional single
leading `'-'` or `'+'` followed by at least one decimal digit. -/
def atoiChars (cs : List Char) : Option Int :=
  match cs with
  | [] => none
  | c :: rest =>
    if c = '-' then
      if rest = [] then none
      else
        match parseDigits rest with
        | some n => some (-(n : Int))
        | none => none
    else if c = '+' then
      if rest = [] then none
      else
        match parseDigits rest with
        | some n => some ((n : Int))
        | none => none
    else
      match parseDigits cs with
      | some n => some ((n : Int))
      | none => none

/-- Model of `strconv.Itoa`. -/
def itoa (n : Int) : String :=
  if n < 0 then String.mk ('-' :: itoaCharsNat n.natAbs)
  else String.mk (itoaCharsNat n.natAbs)

/-- Model of `strconv.Atoi` (`none` models a non-nil error). -/
def atoi (s : String) : Option Int := atoiChars s.data

theorem charDigit_digitChar (d : Nat) (h : d < 10) :
    charDigit (digitChar d) = some d := by
  interval_cases d <;> rfl

theorem digitChar_ne_neg (d : Nat) (h : d < 10) : digitChar d ≠ '-' := by
  interval_cases d <;> decide

theorem digitChar_ne_plus (d : Nat) (h : d < 10) : digitChar d ≠ '+' := by
  interval_cases d <;> decide

theorem traverseDigits_map (l : List Nat) (h : ∀ d ∈ l, d < 10) :
    traverseDigits (l.map digitChar) = some l := by
  induction l with
  | nil => rfl
  | cons a t ih =>
    have ha : a < 10 := h a (List.mem_cons_self a t)
    have ht : ∀ d ∈ t, d < 10 := fun d hd => h d (List.mem_cons_of_mem _ hd)
    simp [traverseDigits, charDigit_digitChar a ha, ih ht]

theorem parseDigits_itoaCharsNat (n : Nat) :
    parseDigits (itoaCharsNat n) = some n := by
  by_cases h : n = 0
  · subst h; decide
  · have hd : ∀ d ∈ Nat.digits 10 n, d < 10 := fun d hd =>
      Nat.digits_lt_base (by norm_num) hd
    have hrev : ∀ d ∈ (Nat.digits 10 n).reverse, d < 10 := fun d hdm =>
      hd d (List.mem_reverse.mp hdm)
    unfold itoaCharsNat parseDigits
    rw [if_neg h, natDigits10_eq, ← List.map_reverse, traverseDigits_map _ hrev]
    simp [Nat.ofDigits_digits]

theorem itoaCharsNat_ne_nil (n : Nat) : itoaCharsNat n ≠ [] := by
  by_cases h : n = 0
  · subst h; decide
  · unfold itoaCharsNat
    rw [if_neg h, natDigits10_eq]
    simp [← List.map_reverse, Nat.digits_ne_nil_iff_ne_zero.mpr h]

theorem itoaCharsNat_head_digit (n : Nat) :
    ∃ d rest, d < 10 ∧ itoaCharsNat n = digitChar d :: rest := by
  by_cases h : n = 0
  · exact ⟨0, [], by norm_num, by subst h; rfl⟩
  · unfold itoaCharsNat
    rw [if_neg h, natDigits10_eq, ← List.map_reverse]
    have hne : (Nat.digits 10 n).reverse ≠ [] := by
      simp [Nat.digits_ne_nil_iff_ne_zero.mpr h]
    obtain ⟨d, t, ht⟩ := List.exists_cons_of_ne_nil hne
    refine ⟨d, t.map digitChar, ?_, by rw [ht]; rfl⟩
    exact Nat.digits_lt_base (by norm_num) (List.mem_reverse.mp (ht ▸ List.mem_cons_self d t))

/-- `strconv.Atoi` inverts `strconv.Itoa` on every integer. -/
theorem atoi_itoa (n : Int) : atoi (itoa n) = some n := by
  unfold atoi itoa
  by_cases h : n < 0
  · rw [if_pos h]
    show atoiChars ('-' :: itoaCharsNat n.natAbs) = some n
    simp only [atoiChars, if_pos rfl, if_neg (itoaCharsNat_ne_nil n.natAbs),
      parseDigits_itoaCharsNat, if_true, Option.some.injEq]
    omega
  · rw [if_neg h]
    obtain ⟨d, rest, hd, hrepr⟩ := itoaCharsNat_head_digit n.natAbs
    show atoiChars (itoaCharsNat n.natAbs) = some n
    rw [hrepr]
    simp only [atoiChars, if_neg (digitChar_ne_neg d hd),
      if_neg (digitChar_ne_plus d hd), ← hrepr, parseDigits_itoaCharsNat]
    congr 1
    omega

/-! ## Data model: the transport envelope

`TransportRequest` mirrors the Go struct field for field.  Byte-slice
fields (`Message`, `Properties`) are byte sequences modelled as `String`;
`CreatedTimestamp` is the exact numeric model of the `float64` field. -/

/-- Go constant `DefaultTimeout = 300` (seconds). -/
def DefaultTimeout : Int := 300

/-- Model of the Go struct `TransportRequest` (transport.go). -/
structure TransportRequest where
  redisMessageID : String := ""
  createdTimestamp : Int := 0
  requestID : String := ""
  message : String := ""
  properties : String := ""
  returnResult : Int := 0
  timeout : Int := 0
deriving DecidableEq, Repr

/-- `TransportRequest.NeedsResponse`: true iff `ReturnResult == 1`. -/
def TransportRequest.NeedsResponse (r : TransportRequest) : Bool :=
  r.returnResult == 1

/-! ## CBOR items

CBOR blobs are modelled at the item level: a wire blob is the encoding of
one `CborVal`.  The CBOR encoding of items is injective and
`cbor.Unmarshal` recovers the item, so working with items loses nothing
the claims need.  `cText` is a CBOR text string (a Go `string` field),
`cBytes` a CBOR byte string (a Go `[]byte` field), `cFloat` the CBOR
float of the timestamp model. -/

/-- A CBOR data item (fxamacker/cbor value, restricted to the shapes the
transport layer produces and inspects). -/
inductive CborVal where
  | cInt (n : Int)
  | cText (s : String)
  | cBytes (b : String)
  | cFloat (x : Int)
  | cNull
  | cMap (entries : List (String × CborVal))

/-- First-match lookup in a CBOR map's entry list. -/
def cborLookup (es : List (String × CborVal)) (k : String) : Option CborVal :=
  (es.find? (fun p => p.1 == k)).map (fun p => p.2)

/-! ## Redis entry values

A value of a Redis stream entry field (Go `interface{}` in
`map[string]interface{}`).  `str` is an ordinary string value; `blob` is
a string/byte-slice value whose bytes are the CBOR encoding of the given
item.  (The flat-field extraction code type-switches on
`string`/`[]byte`; both carry the same byte content and `str` stands for
both.  A `blob` in a flat-field position models a non-string dynamic
value, i.e. the type switch's default branch.) -/

inductive GoVal where
  | str (s : String)
  | blob (c : CborVal)

/-- Model of Go `map[string]interface{}` as an association list with
distinct keys (lookup is first-match). -/
def FieldMap := List (String × GoVal)

/-- Go map indexing `m[k]` (`ok` ↦ `isSome`). -/
def mlookup (m : FieldMap) (k : String) : Option GoVal :=
  (m.find? (fun p => p.1 == k)).map (fun p => p.2)

/-! ## Deserialization errors -/

/-- The error values produced on the ingress path (Go `error` returns of
`Deserialize` / `DecodeTransportRequest` / `deserializeMessage`). -/
inductive DesErr where
  /-- `attribute %q not found in message data` (checkRequiredAttrs). -/
  | missingAttr (attr : String)
  /-- `invalid ... type: %T` — a field value with the wrong dynamic type. -/
  | badType (field : String)
  /-- `invalid ... string format: %q` — Atoi/ParseFloat failure. -/
  | badFormat (field : String) (val : String)
  /-- a `cbor.Unmarshal` failure inside `DecodeTransportRequest`. -/
  | invalidCbor (what : String)
deriving DecidableEq, Repr

/-! ## RedisBrokerSerialize (serializer.go) -/

namespace RedisBrokerSerialize

/-- The `requiredAttrs` field set by `NewRedisBrokerSerialize`. -/
def requiredAttrs : List String := ["i", "r", "p"]

/-- `Serialize`: envelope → flat field map.  `i`, `r`, `p` always;
`m` iff the message is non-empty, `t` iff timeout > 0, `c` iff the
created timestamp > 0.  (The Go version also returns a nil error.) -/
def Serialize (request : TransportRequest) : FieldMap :=
  [("i", .str request.requestID),
   ("r", .str (itoa request.returnResult)),
   ("p", .str request.properties)]
  ++ (if request.message = "" then [] else [("m", .str request.message)])
  ++ (if request.timeout > 0 then [("t", .str (itoa request.timeout))] else [])
  ++ (if request.createdTimestamp > 0 then
        [("c", .str (itoa request.createdTimestamp))] else [])

/-- `checkRequiredAttrs`: first required attribute missing from the map
yields the error naming it. -/
def checkRequiredAttrs (attrs : List String) (m : FieldMap) : Except DesErr Unit :=
  match attrs with
  | [] => .ok ()
  | a :: rest =>
    if (mlookup m a).isSome then checkRequiredAttrs rest m
    else .error (.missingAttr a)

/-- One optional-string extraction block of `Deserialize`: key present
with a string value → that value; present with another dynamic type →
type error; absent → the zero value / default `dflt`.  (The `p` block
also accepts `[]byte`, which `str` covers equally.) -/
def getStrField (m : FieldMap) (k : String) (dflt : String) : Except DesErr String :=
  match mlookup m k with
  | some (.str v) => .ok v
  | some (.blob _) => .error (.badType k)
  | none => .ok dflt

/-- One numeric extraction block of `Deserialize`: key present with a
string value → `strconv.Atoi` it (failure is a format error); present
with another dynamic type → type error; absent → `dflt`.  Also models
the `c` block, whose `strconv.ParseFloat` is the timestamp codec. -/
def getNumField (m : FieldMap) (k : String) (dflt : Int) : Except DesErr Int :=
  match mlookup m k with
  | some (.str v) =>
    match atoi v with
    | some n => .ok n
    | none => .error (.badFormat k v)
  | some (.blob _) => .error (.badType k)
  | none => .ok dflt

/-- `Deserialize`: flat field map → envelope.  Required `{i, r, p}` are
checked first; `t` defaults to `DefaultTimeout` when absent; `m` and `c`
default to their zero values. -/
def Deserialize (messageData : FieldMap) : Except DesErr TransportRequest := do
  let _ ← checkRequiredAttrs requiredAttrs messageData
  let i ← getStrField messageData "i" ""
  let r ← getNumField messageData "r" 0
  let p ← getStrField messageData "p" ""
  let msg ← getStrField messageData "m" ""
  let t ← getNumField messageData "t" DefaultTimeout
  let c ← getNumField messageData "c" 0
  pure { redisMessageID := "", createdTimestamp := c, requestID := i,
         message := msg, properties := p, returnResult := r, timeout := t }

end RedisBrokerSerialize

/-! ## CBOR blob dialect (transport.go)

`cbor.Marshal` of a `TransportRequest` produces a CBOR map keyed by the
struct tags `id, c, i, m, p, r, t` (no omitempty: every field is
present).  `cbor.Unmarshal` into the struct looks each tag up, leaves
the zero value for a missing key, accepts null for a byte slice, and
fails on a wrong-typed value or a non-map item. -/

/-- The CBOR item `cbor.Marshal` produces for a `TransportRequest`. -/
def encodeTransportRequest (r : TransportRequest) : CborVal :=
  .cMap [("id", .cText r.redisMessageID),
         ("c", .cFloat r.createdTimestamp),
         ("i", .cText r.requestID),
         ("m", .cBytes r.message),
         ("p", .cBytes r.properties),
         ("r", .cInt r.returnResult),
         ("t", .cInt r.timeout)]

/-- `cbor.Unmarshal` of a Go `string` struct field: text item or absent. -/
def decodeCborText (v : Option CborVal) (field : String) : Except DesErr String :=
  match v with
  | none => .ok ""
  | some (.cText s) => .ok s
  | some _ => .error (.invalidCbor field)

/-- `cbor.Unmarshal` of a Go `[]byte` struct field: byte string, null or
absent. -/
def decodeCborBytes (v : Option CborVal) (field : String) : Except DesErr String :=
  match v with
  | none => .ok ""
  | some (.cBytes b) => .ok b
  | some .cNull => .ok ""
  | some _ => .error (.invalidCbor field)

/-- `cbor.Unmarshal` of a Go `int` struct field: integer item or absent. -/
def decodeCborInt (v : Option CborVal) (field : String) : Except DesErr Int :=
  match v with
  | none => .ok 0
  | some (.cInt n) => .ok n
  | some _ => .error (.invalidCbor field)

/-- `cbor.Unmarshal` of the Go `float64` struct field. -/
def decodeCborFloat (v : Option CborVal) (field : String) : Except DesErr Int :=
  match v with
  | none => .ok 0
  | some (.cFloat x) => .ok x
  | some _ => .error (.invalidCbor field)

/-- `DecodeTransportRequest`: `cbor.Unmarshal` of a blob into a
`TransportRequest` (transport.go). -/
def DecodeTransportRequest (v : CborVal) : Except DesErr TransportRequest :=
  match v with
  | .cMap es => do
    let id ← decodeCborText (cborLookup es "id") "id"
    let c ← decodeCborFloat (cborLookup es "c") "c"
    let i ← decodeCborText (cborLookup es "i") "i"
    let m ← decodeCborBytes (cborLookup es "m") "m"
    let p ← decodeCborBytes (cborLookup es "p") "p"
    let r ← decodeCborInt (cborLookup es "r") "r"
    let t ← decodeCborInt (cborLookup es "t") "t"
    pure { redisMessageID := id, createdTimestamp := c, requestID := i,
           message := m, properties := p, returnResult := r, timeout := t }
  | _ => .error (.invalidCbor "not a map")

/-! ## Two-dialect ingress: Bus.deserializeMessage (bus.go) -/

/-- A consumed Redis stream entry (`redis.XMessage`): the broker-assigned
entry id and the field map. -/
structure XMessage where
  id : String
  values : FieldMap

/-- `Bus.deserializeMessage`: if the entry has a `data` field, decode it
as a CBOR blob (Dialect A) — an error there is returned, not recovered;
otherwise deserialize the flat fields via the broker serializer
(Dialect B).  Either way the broker entry id is stamped into
`redisMessageID`.  (A `data` value that is a plain text string is
modelled as an invalid CBOR blob.) -/
def deserializeMessage (msg : XMessage) : Except DesErr TransportRequest :=
  match mlookup msg.values "data" with
  | some v =>
    match v with
    | .blob c =>
      match DecodeTransportRequest c with
      | .ok req => .ok { req with redisMessageID := msg.id }
      | .error e => .error e
    | .str _ => .error (.invalidCbor "data")
  | none =>
    match RedisBrokerSerialize.Deserialize msg.values with
    | .ok req => .ok { req with redisMessageID := msg.id }
    | .error e => .error e

/-! ## Transport response and response dispatch (transport.go, bus.go) -/

/-- A Go `error` value as the bus observes it: `Error()` (the message)
and `fmt.Sprintf("%T", err)` (the dynamic type name). -/
structure GoError where
  msg : String
  typeTag : String
deriving DecidableEq, Repr

/-- The `Response` struct: what `Handle` returned.  `data` is the `any`
result modelled as an encodable CBOR item (`none` = Go nil interface);
`error` the handler's error (`none` = nil). -/
structure ResponseV where
  data : Option CborVal
  error : Option GoError

/-- Model of the Go struct `TransportResponse`.  `result` (an `any`
field), `error` and `error_class` (string fields) all carry
`omitempty`. -/
structure TransportResponse where
  reqID : String
  result : Option CborVal := none
  error : String := ""
  errorClass : String := ""

/-- fxamacker/cbor's default `omitempty` mode (`OmitEmptyCBORValue`):
a field tagged `omitempty` is dropped whenever its encoding is an empty
CBOR value — false, 0, 0.0, nil/null, an empty string, empty byte
string, empty array or empty map. -/
def CborVal.isEmptyValue : CborVal → Bool
  | .cInt n => n == 0
  | .cText s => s == ""
  | .cBytes b => b == ""
  | .cFloat x => x == 0
  | .cNull => true
  | .cMap es => es.isEmpty

/-- `TransportResponse.Encode`: `cbor.Marshal` of the response.
`req_id` is always present; the `omitempty` keys are dropped when the
Go value is a nil interface or when its encoding is an empty CBOR value
(for the string fields those coincide with the empty string). -/
def TransportResponse.Encode (r : TransportResponse) : CborVal :=
  .cMap ([("req_id", .cText r.reqID)]
    ++ (match r.result with
        | some v => if v.isEmptyValue then [] else [("result", v)]
        | none => [])
    ++ (if r.error = "" then [] else [("error", .cText r.error)])
    ++ (if r.errorClass = "" then [] else [("error_class", .cText r.errorClass)]))

/-- Whether an encoded CBOR map carries a given key. -/
def hasKey (v : CborVal) (k : String) : Bool :=
  match v with
  | .cMap es => es.any (fun p => p.1 == k)
  | _ => false

/-- The `TransportResponse` value `Bus.sendResponse` builds before
encoding: `ReqID` and `Result` are always set from the request id and
the handler result; on a non-nil handler error `Error` and `ErrorClass`
are also set (the result field is not cleared). -/
def buildTransportResponse (requestID : String) (response : ResponseV) :
    TransportResponse :=
  let base : TransportResponse := { reqID := requestID, result := response.data }
  match response.error with
  | some e => { base with error := e.msg, errorClass := e.typeTag }
  | none => base

/-- One external action of the response path. -/
inductive Effect where
  /-- `pipe.RPush(ctx, requestID, responseBytes)` — the value is the
  (item-level) encoded response. -/
  | rpush (key : String) (value : CborVal)
  /-- `pipe.Expire(ctx, requestID, 30*time.Second)` — seconds. -/
  | expire (key : String) (seconds : Nat)
  /-- `pipe.XDel(ctx, streamName, redisMessageID)`. -/
  | xdel (stream : String) (id : String)
  /-- the local waiter notification `responseCh <- response`. -/
  | notify (requestID : String) (response : ResponseV)

/-- What `Bus.sendResponse` does: the pipeline context timeout and the
issued effects, in order.  `waiters` is the set of request ids currently
registered in `b.responses`. -/
structure SendSpec where
  pipelineCtxTimeoutSecs : Nat
  effects : List Effect

/-- `Bus.sendResponse` (bus.go): build and encode the response, then in
one pipeline under a fresh 5-second context RPUSH it under the request
id, set a 30-second TTL on that key, and XDEL the processed entry;
finally notify the local waiter if one is registered. -/
def sendResponse (streamName requestID redisMessageID : String)
    (response : ResponseV) (waiters : List String) : SendSpec :=
  let transportResp := buildTransportResponse requestID response
  let responseBytes := transportResp.Encode
  { pipelineCtxTimeoutSecs := 5,
    effects :=
      [.rpush requestID responseBytes,
       .expire requestID 30,
       .xdel streamName redisMessageID]
      ++ (if requestID ∈ waiters then [.notify requestID response] else []) }

/-- `Bus.processMessage` (bus.go): after `Handle` has returned
`handleResult`, do nothing unless the request needs a response and the
result/error pair is not (nil, nil); otherwise dispatch via
`sendResponse`.  Returns the effects issued. -/
def processMessage (streamName : String) (req : TransportRequest)
    (handleResult : ResponseV) (waiters : List String) : List Effect :=
  if !req.NeedsResponse then []
  else if handleResult.data.isNone && handleResult.error.isNone then []
  else (sendResponse streamName req.requestID req.redisMessageID
          handleResult waiters).effects

/-! ## Bus lifecycle (bus.go): NewBus / Register / Run / Stop -/

/-- The fields of the Go `Bus` struct that the lifecycle claims touch.
`cancel` is the `context.CancelFunc` field: `none` models the nil
function value.  `wgCount` is the `sync.WaitGroup` counter. -/
structure Bus where
  subscribers : List String
  responses : List String
  cancel : Option Unit
  wgCount : Nat

/-- `NewBus(redis, ctx)`: the struct literal sets `redis`, `serializer`,
`subscribers`, `responses` and `ctx` — and nothing else, so `cancel`
keeps its zero value (a nil function) and the wait-group counter is 0. -/
def NewBus : Bus :=
  { subscribers := [], responses := [], cancel := none, wgCount := 0 }

/-- `Bus.Register(streamName, constructor)`: records the stream name in
the subscriber map. -/
def Bus.Register (b : Bus) (streamName : String) : Bus :=
  { b with subscribers := b.subscribers ++ [streamName] }

/-- `Bus.Run()`: starts one goroutine per registered stream with plain
`go` statements — it mutates no field of the bus; in particular it never
calls `wg.Add` and never installs a cancel function. -/
def Bus.Run (b : Bus) : Bus := b

/-- Outcome of calling `Bus.Stop()`. -/
inductive StopOutcome where
  /-- the call panicked (aborting the process). -/
  | panicked (msg : String)
  /-- the call returned normally. -/
  | returned
deriving DecidableEq, Repr

/-- `Bus.Stop()`: calls `b.cancel()` then `b.wg.Wait()`.  Calling a nil
`context.CancelFunc` is a nil function call, which panics. -/
def Bus.Stop (b : Bus) : StopOutcome :=
  match b.cancel with
  | none => .panicked "runtime error: invalid memory address or nil pointer dereference"
  | some _ => .returned

/-! ## Execute (bus.go): envelope construction and waiter discipline -/

/-- One hex digit character (lowercase, as `encoding/hex`). -/
def hexDigitChar (d : Nat) : Char :=
  if d < 10 then Char.ofNat (48 + d) else Char.ofNat (87 + d)

/-- The character list of `hex.EncodeToString`: two lowercase hex
characters per byte. -/
def hexChars : List Nat → List Char
  | [] => []
  | b :: rest => hexDigitChar (b / 16 % 16) :: hexDigitChar (b % 16) :: hexChars rest

/-- `hex.EncodeToString`: two lowercase hex characters per byte. -/
def hexEncode (bytes : List Nat) : String := String.mk (hexChars bytes)

/-- `generateRequestID`: hex-encode 16 random bytes (the entropy read by
`rand.Read` is a parameter of the model). -/
def generateRequestID (entropy : List Nat) : String := hexEncode entropy

/-- One observable step of `Bus.Execute` on its success path. -/
inductive ExecEvent where
  /-- `make(chan Response, 1)` + `b.responses[requestID] = responseCh`
  (the channel capacity is recorded). -/
  | registerWaiter (requestID : String) (capacity : Nat)
  /-- `b.redis.XAdd(ctx, &redis.XAddArgs{Stream: ..., Values: ...})`. -/
  | xadd (stream : String) (values : FieldMap)
  /-- blocking on the waiter channel / ctx / 300 s timer. -/
  | awaitResponse (requestID : String)
  /-- deferred `delete(b.responses, requestID)`. -/
  | removeWaiter (requestID : String)
  /-- deferred `close(responseCh)`. -/
  | closeWaiter (requestID : String)

/-- `Bus.Execute(ctx, pub)` (success path): the envelope it builds and
the ordered events it performs.  `streamName` is `pub.String()`,
`payload` is `pub.Serialize()`, `entropy` the 16 bytes `rand.Read`
yields, `now` the current time (timestamp model). -/
def Execute (streamName payload : String) (entropy : List Nat) (now : Int) :
    TransportRequest × List ExecEvent :=
  let requestID := generateRequestID entropy
  let transportReq : TransportRequest :=
    { createdTimestamp := now,
      requestID := requestID,
      message := String.mk [Char.ofNat 0xa0],  -- []byte{0xa0}, the empty CBOR map
      properties := payload,
      returnResult := 1,
      timeout := DefaultTimeout }
  let values := RedisBrokerSerialize.Serialize transportReq
  (transportReq,
   [.registerWaiter requestID 1,
    .xadd streamName values,
    .awaitResponse requestID,
    .removeWaiter requestID,
    .closeWaiter requestID])

/-! ## Consumer read loop (bus.go): Bus.processStream -/

/-- The `redis.XReadArgs` each loop iteration passes to `XRead`. -/
structure XReadArgs where
  streams : List String
  count : Nat
  block : Nat
deriving DecidableEq, Repr

/-- The body of `processStream`'s endless loop never assigns `lastID`:
given the cursor the iteration started with and whatever `XRead`
returned, the next iteration's cursor is the same. -/
def loopStepCursor (lastID : String) (_xreadResult : List XMessage) : String :=
  lastID

/-- The cursor `processStream` holds at the start of its `n`-th loop
iteration, for any sequence of `XRead` results: `lastID` starts at `"$"`
(new messages only) and is threaded through `loopStepCursor`. -/
def cursorAt (results : Nat → List XMessage) : Nat → String
  | 0 => "$"
  | n + 1 => loopStepCursor (cursorAt results n) (results n)

/-- The arguments of the `n`-th `XRead` call of `processStream`:
`Streams: []string{streamName, lastID}, Count: 1, Block: 0`. -/
def xreadArgsAt (streamName : String) (results : Nat → List XMessage) (n : Nat) :
    XReadArgs :=
  { streams := [streamName, cursorAt results n], count := 1, block := 0 }

/-- Abstract timing model of one consumer running blocking `XRead`
calls with the `"$"` cursor against an append-only stream.  Times are
abstract instants; `appendTime e` is when entry `e` was appended.
`returned k e` says call `k`'s result contained `e`.  The two `returned`
laws are the documented semantics of `XREAD` with the `$` cursor: it
delivers only entries appended after the call was issued, and a call
can only deliver entries that exist when it returns. -/
structure DollarRead where
  /-- entries are indexed by `Nat`; when entry `e` was appended. -/
  appendTime : Nat → Nat
  /-- when the `k`-th `XRead` call was issued. -/
  issue : Nat → Nat
  /-- when the `k`-th `XRead` call returned. -/
  ret : Nat → Nat
  /-- which entries the `k`-th call returned. -/
  returned : Nat → Nat → Prop
  issue_lt_ret : ∀ k, issue k < ret k
  ret_le_issue_succ : ∀ k, ret k ≤ issue (k + 1)
  returned_after_issue : ∀ k e, returned k e → issue k < appendTime e
  returned_before_ret : ∀ k e, returned k e → appendTime e ≤ ret k

namespace DollarRead

theorem issue_mono (R : DollarRead) {j k : Nat} (h : j ≤ k) :
    R.issue j ≤ R.issue k := by
  induction k with
  | zero => simp_all
  | succ k ih =>
    rcases Nat.lt_or_ge j (k + 1) with hlt | hge
    · exact le_trans (ih (Nat.lt_succ_iff.mp hlt))
        (le_trans (le_of_lt (R.issue_lt_ret k)) (R.ret_le_issue_succ k))
    · have : j = k + 1 := le_antisymm h hge
      simp [this]

theorem ret_mono (R : DollarRead) {j k : Nat} (h : j ≤ k) :
    R.ret j ≤ R.ret k := by
  induction k with
  | zero => simp_all
  | succ k ih =>
    rcases Nat.lt_or_ge j (k + 1) with hlt | hge
    · exact le_trans (ih (Nat.lt_succ_iff.mp hlt))
        (le_trans (R.ret_le_issue_succ k) (le_of_lt (R.issue_lt_ret (k + 1))))
    · have : j = k + 1 := le_antisymm h hge
      simp [this]

end DollarRead

/-- Optional-field shape accepted by a string block of `Deserialize`:
absent, or present as a string. -/
def optStrOk : Option GoVal → Prop
  | none => True
  | some (.str _) => True
  | some (.blob _) => False

/-- Optional-field shape accepted by a numeric block of `Deserialize`:
absent, or present as a string of valid format. -/
def optNumOk : Option GoVal → Prop
  | none => True
  | some (.str s) => (atoi s).isSome = true
  | some (.blob _) => False

instance : DecidableEq (Except DesErr TransportRequest) := fun a b =>
  match a, b with
  | .ok x, .ok y =>
    if h : x = y then isTrue (by rw [h])
    else isFalse (fun hh => h (Except.ok.inj hh))
  | .error x, .error y =>
    if h : x = y then isTrue (by rw [h])
    else isFalse (fun hh => h (Except.error.inj hh))
  | .ok _, .error _ => isFalse (fun hh => Except.noConfusion hh)
  | .error _, .ok _ => isFalse (fun hh => Except.noConfusion hh)

/-- A concrete instantiation of the `$`-cursor timing model (used to
exhibit the consumer-skip property at a concrete point). -/
def dollarReadModel : DollarRead where
  appendTime := fun e => e
  issue := fun k => 3 * k
  ret := fun k => 3 * k + 1
  returned := fun _ _ => False
  issue_lt_ret := by intro k; show 3 * k < 3 * k + 1; omega
  ret_le_issue_succ := by intro k; show 3 * k + 1 ≤ 3 * (k + 1); omega
  returned_after_issue := by intro k e h; cases h
  returned_before_ret := by intro k e h; cases h

/-! ## Round-trip lemmas -/

/-- The CBOR blob dialect round-trips every envelope exactly. -/
theorem decode_encode_transportRequest (r : TransportRequest) :
    DecodeTransportRequest (encodeTransportRequest r) = .ok r := rfl

/-- The flat dialect round-trips an envelope whose timeout is positive
and whose created timestamp is non-negative (the `redisMessageID` field
is not carried and comes back as its zero value). -/
theorem deserialize_serialize (r : TransportRequest) (ht : 0 < r.timeout)
    (hc : 0 ≤ r.createdTimestamp) :
    RedisBrokerSerialize.Deserialize (RedisBrokerSerialize.Serialize r)
      = .ok { r with redisMessageID := "" } := by
  have hcases : r.createdTimestamp > 0 ∨ r.createdTimestamp = 0 := by omega
  by_cases hm : r.message = "" <;> rcases hcases with hc' | hc' <;>
    simp [RedisBrokerSerialize.Serialize, RedisBrokerSerialize.Deserialize,
      RedisBrokerSerialize.checkRequiredAttrs, RedisBrokerSerialize.requiredAttrs,
      RedisBrokerSerialize.getStrField, RedisBrokerSerialize.getNumField,
      mlookup, List.find?, atoi_itoa, hm, ht, hc',
      Bind.bind, Except.bind, Pure.pure, Except.pure]

/-- The egress field map never contains a `data` key. -/
theorem serialize_no_data (r : TransportRequest) :
    mlookup (RedisBrokerSerialize.Serialize r) "data" = none := by
  by_cases hm : r.message = "" <;> by_cases ht : r.timeout > 0 <;>
    by_cases hc : r.createdTimestamp > 0 <;>
      simp [RedisBrokerSerialize.Serialize, mlookup, List.find?, hm, ht, hc]

/-- Full flat ingress of an egress field map: Dialect B applies (no
`data` key) and the broker id is stamped. -/
theorem deserializeMessage_flat (r : TransportRequest) (id : String)
    (ht : 0 < r.timeout) (hc : 0 ≤ r.createdTimestamp) :
    deserializeMessage ⟨id, RedisBrokerSerialize.Serialize r⟩
      = .ok { r with redisMessageID := id } := by
  simp [deserializeMessage, serialize_no_data, deserialize_serialize r ht hc]

/-- Full blob ingress of an encoded envelope: Dialect A applies and the
broker id is stamped (no condition on any field). -/
theorem deserializeMessage_blob (r : TransportRequest) (id : String) :
    deserializeMessage ⟨id, [("data", .blob (encodeTransportRequest r))]⟩
      = .ok { r with redisMessageID := id } := by
  simp [deserializeMessage, mlookup, List.find?, decode_encode_transportRequest]

/-- The consumer's cursor is `"$"` at the start of every iteration. -/
theorem cursorAt_eq (results : Nat → List XMessage) (n : Nat) :
    cursorAt results n = "$" := by
  induction n with
  | zero => rfl
  | succ n ih => simp [cursorAt, loopStepCursor, ih]

/-- `hex.EncodeToString` yields two characters per input byte. -/
theorem hexEncode_length (bytes : List Nat) :
    (hexEncode bytes).length = 2 * bytes.length := by
  unfold hexEncode
  induction bytes with
  | nil => rfl
  | cons b t ih =>
    simp only [hexChars, String.length] at *
    simpa using by omega

/-! ## Claim C1: flat-dialect round-trip -/

/-- C1 (counterexample): the round-trip is NOT the identity modulo
`redisMessageID` when the envelope's timeout is 0 — `Serialize` omits
`t` (it only emits it when timeout > 0) and `Deserialize` then defaults
the timeout to 300, so the claim's "holds also when E's timeout is 0"
fails on this concrete envelope. -/
theorem c1_counterexample :
    deserializeMessage ⟨"1-1", RedisBrokerSerialize.Serialize
        { requestID := "8a55d932", properties := "payload", returnResult := 1,
          timeout := 0 }⟩
      = .ok { requestID := "8a55d932", properties := "payload", returnResult := 1,
              timeout := 300, redisMessageID := "1-1" }
    ∧ deserializeMessage ⟨"1-1", RedisBrokerSerialize.Serialize
        { requestID := "8a55d932", properties := "payload", returnResult := 1,
          timeout := 0 }⟩
      ≠ .ok { requestID := "8a55d932", properties := "payload", returnResult := 1,
              timeout := 0, redisMessageID := "1-1" } := by
  constructor
  · decide
  · decide

/-- C1 (amended): for every envelope with positive timeout and
non-negative created timestamp, deserializing the field map produced by
the flat broker serializer yields the same envelope with
`redisMessageID` set from the broker entry id; a timeout of 0 instead
comes back as the default 300, while an empty message round-trips. -/
theorem c1_flat_roundtrip (r : TransportRequest) (id : String)
    (ht : 0 < r.timeout) (hc : 0 ≤ r.createdTimestamp) :
    deserializeMessage ⟨id, RedisBrokerSerialize.Serialize r⟩
      = .ok { r with redisMessageID := id } :=
  deserializeMessage_flat r id ht hc

/-- C1 (witness): the amended round-trip at a concrete envelope. -/
theorem c1_witness :
    (0 : Int) < 300 ∧ (0 : Int) ≤ 5 ∧
    deserializeMessage ⟨"7-0", RedisBrokerSerialize.Serialize
        { requestID := "ab12", properties := "pp", returnResult := 1,
          timeout := 300, createdTimestamp := 5 }⟩
      = .ok { requestID := "ab12", properties := "pp", returnResult := 1,
              timeout := 300, createdTimestamp := 5, redisMessageID := "7-0" } :=
  ⟨by norm_num, by norm_num,
   c1_flat_roundtrip
     { requestID := "ab12", properties := "pp", returnResult := 1,
       timeout := 300, createdTimestamp := 5 }
     "7-0" (by norm_num) (by norm_num)⟩

/-! ## Claim C2: Stop after Run -/

/-- C2 (code bug): `Stop()` on a bus built by `NewBus` does not cancel
and drain — it panics, because `NewBus` stores the caller's context but
never creates a cancel function, so the `cancel` field is a nil
function when `Stop` calls it; moreover `Run` never increments the wait
group, so `wg.Wait()` could not track any consumer task. -/
theorem c2_stop_panics :
    ((NewBus.Register "svc.query.Ping").Run).Stop
      = .panicked "runtime error: invalid memory address or nil pointer dereference"
    ∧ ((NewBus.Register "svc.query.Ping").Run).cancel = none
    ∧ ((NewBus.Register "svc.query.Ping").Run).wgCount = 0 :=
  ⟨rfl, rfl, rfl⟩

/-! ## Claim C3: reply field population -/

/-- C3 (counterexample): when `Handle` returns a non-null result AND a
non-null error, the encoded `TransportResponse` carries `result` as well
as `error` and `error_class` — `sendResponse` sets `Result` from the
handler result unconditionally and does not clear it on the error path,
so "omits result" fails and both are populated. -/
theorem c3_counterexample :
    hasKey ((buildTransportResponse "req1"
        { data := some (.cText "value"),
          error := some { msg := "boom", typeTag := "*errors.errorString" } }).Encode)
        "result" = true
    ∧ hasKey ((buildTransportResponse "req1"
        { data := some (.cText "value"),
          error := some { msg := "boom", typeTag := "*errors.errorString" } }).Encode)
        "error" = true
    ∧ hasKey ((buildTransportResponse "req1"
        { data := some (.cText "value"),
          error := some { msg := "boom", typeTag := "*errors.errorString" } }).Encode)
        "error_class" = true :=
  ⟨rfl, rfl, rfl⟩

/-- C3 (amended): in every reply the bus builds, `req_id` is always
present; `result` is present iff `Handle`'s result was non-null and its
encoding is a non-empty CBOR value (`sendResponse` sets `Result`
unconditionally, so this holds even when an error is also set, and
`omitempty` additionally drops non-null empty results); `error` is
present iff the handler error was non-null with a non-empty message,
and `error_class` iff it was non-null with a non-empty type tag; when
the error is null, `error` and `error_class` are omitted and only
`result` can be populated. -/
theorem c3_reply_field_population (requestID : String) (response : ResponseV) :
    hasKey ((buildTransportResponse requestID response).Encode) "req_id" = true
    ∧ hasKey ((buildTransportResponse requestID response).Encode) "result"
        = (match response.data with
           | some v => !v.isEmptyValue
           | none => false)
    ∧ hasKey ((buildTransportResponse requestID response).Encode) "error"
        = (match response.error with
           | some e => e.msg != ""
           | none => false)
    ∧ hasKey ((buildTransportResponse requestID response).Encode) "error_class"
        = (match response.error with
           | some e => e.typeTag != ""
           | none => false) := by
  obtain ⟨d, e⟩ := response
  cases e with
  | none =>
    cases d with
    | none => simp [buildTransportResponse, TransportResponse.Encode, hasKey]
    | some v =>
      by_cases hv : v.isEmptyValue = true <;>
        simp [buildTransportResponse, TransportResponse.Encode, hasKey, hv]
  | some err =>
    cases d with
    | none =>
      by_cases h1 : err.msg = "" <;> by_cases h2 : err.typeTag = "" <;>
        simp [buildTransportResponse, TransportResponse.Encode, hasKey, h1, h2]
    | some v =>
      by_cases hv : v.isEmptyValue = true <;>
        by_cases h1 : err.msg = "" <;> by_cases h2 : err.typeTag = "" <;>
          simp [buildTransportResponse, TransportResponse.Encode, hasKey,
            hv, h1, h2]

/-! ## Claim C4: response pipeline -/

/-- C4: after `Handle` returns for a request with `returnResult = 1` and
a result/error pair that is not (null, null), the bus encodes a
`TransportResponse` whose `reqID` is the request's `requestID` and, in a
fresh 5-second context, issues one pipeline of RPUSH under the request
id, EXPIRE of that key with 30-second TTL, and XDEL of the entry's
`redisMessageID`; a waiter registered under that request id is notified
with the response. -/
theorem c4_response_pipeline (streamName : String) (req : TransportRequest)
    (handleResult : ResponseV) (waiters : List String)
    (h1 : req.returnResult = 1)
    (h2 : handleResult.data.isSome = true ∨ handleResult.error.isSome = true)
    (h3 : req.requestID ∈ waiters) :
    processMessage streamName req handleResult waiters
      = [.rpush req.requestID ((buildTransportResponse req.requestID handleResult).Encode),
         .expire req.requestID 30,
         .xdel streamName req.redisMessageID,
         .notify req.requestID handleResult]
    ∧ (buildTransportResponse req.requestID handleResult).reqID = req.requestID
    ∧ (sendResponse streamName req.requestID req.redisMessageID handleResult
        waiters).pipelineCtxTimeoutSecs = 5 := by
  refine ⟨?_, ?_, rfl⟩
  · obtain ⟨d, e⟩ := handleResult
    cases d <;> cases e <;>
      simp_all [processMessage, TransportRequest.NeedsResponse, sendResponse, h3]
  · simp only [buildTransportResponse]
    cases handleResult.error <;> rfl

/-- C4 (witness): the pipeline at a concrete request and handler result. -/
theorem c4_witness :
    processMessage "svc.query.Ping"
        { requestID := "id1", redisMessageID := "5-0", returnResult := 1 }
        { data := some (.cText "pong"), error := none } ["id1"]
      = [.rpush "id1" ((buildTransportResponse "id1"
            { data := some (.cText "pong"), error := none }).Encode),
         .expire "id1" 30,
         .xdel "svc.query.Ping" "5-0",
         .notify "id1" { data := some (.cText "pong"), error := none }]
    ∧ (buildTransportResponse "id1"
        { data := some (.cText "pong"), error := none }).reqID = "id1"
    ∧ (sendResponse "svc.query.Ping" "id1" "5-0"
        { data := some (.cText "pong"), error := none }
        ["id1"]).pipelineCtxTimeoutSecs = 5 :=
  c4_response_pipeline "svc.query.Ping"
    { requestID := "id1", redisMessageID := "5-0", returnResult := 1 }
    { data := some (.cText "pong"), error := none } ["id1"]
    rfl (Or.inl rfl) (List.mem_singleton.mpr rfl)

/-! ## Claim C5: ingress dialect parity -/

/-- C5 (counterexample): the two ingress dialects do NOT agree on the
timeout when the envelope's timeout is 0 — the blob dialect round-trips
the 0 while the flat dialect omits `t` on egress and defaults it to 300
on ingress, so decoding the two entries yields different envelopes. -/
theorem c5_counterexample :
    deserializeMessage ⟨"1-1", [("data", .blob (encodeTransportRequest
        { requestID := "deadbeef", properties := "payload", returnResult := 1,
          timeout := 0 }))]⟩
      = .ok { requestID := "deadbeef", properties := "payload", returnResult := 1,
              timeout := 0, redisMessageID := "1-1" }
    ∧ deserializeMessage ⟨"1-1", RedisBrokerSerialize.Serialize
        { requestID := "deadbeef", properties := "payload", returnResult := 1,
          timeout := 0 }⟩
      = .ok { requestID := "deadbeef", properties := "payload", returnResult := 1,
              timeout := 300, redisMessageID := "1-1" }
    ∧ deserializeMessage ⟨"1-1", [("data", .blob (encodeTransportRequest
        { requestID := "deadbeef", properties := "payload", returnResult := 1,
          timeout := 0 }))]⟩
      ≠ deserializeMessage ⟨"1-1", RedisBrokerSerialize.Serialize
        { requestID := "deadbeef", properties := "payload", returnResult := 1,
          timeout := 0 }⟩ := by
  refine ⟨by decide, by decide, by decide⟩

/-- C5 (amended): for envelopes with positive timeout and non-negative
created timestamp, encoding as a blob under the `data` key and decoding
the entry agrees with producing the flat field map and decoding it —
both give the envelope with `redisMessageID` stamped from the entry id;
in particular the dialects agree on an empty message.  When the timeout
is 0 they disagree (blob keeps 0, flat defaults to 300). -/
theorem c5_dialect_parity (r : TransportRequest) (id : String)
    (ht : 0 < r.timeout) (hc : 0 ≤ r.createdTimestamp) :
    deserializeMessage ⟨id, [("data", .blob (encodeTransportRequest r))]⟩
      = deserializeMessage ⟨id, RedisBrokerSerialize.Serialize r⟩
    ∧ deserializeMessage ⟨id, [("data", .blob (encodeTransportRequest r))]⟩
      = .ok { r with redisMessageID := id } := by
  have hb := deserializeMessage_blob r id
  have hf := deserializeMessage_flat r id ht hc
  exact ⟨hb.trans hf.symm, hb⟩

/-- C5 (witness): dialect parity at a concrete envelope with an empty
message. -/
theorem c5_witness :
    (0 : Int) < 10 ∧ (0 : Int) ≤ 0 ∧
    (deserializeMessage ⟨"2-0", [("data", .blob (encodeTransportRequest
        { requestID := "ab", properties := "pp", returnResult := 1,
          timeout := 10 }))]⟩
      = deserializeMessage ⟨"2-0", RedisBrokerSerialize.Serialize
        { requestID := "ab", properties := "pp", returnResult := 1,
          timeout := 10 }⟩) :=
  ⟨by norm_num, by norm_num,
   (c5_dialect_parity
     { requestID := "ab", properties := "pp", returnResult := 1, timeout := 10 }
     "2-0" (by norm_num) (by norm_num)).1⟩

/-! ## Claim C6: dialect selection order -/

/-- C6 (counterexample): an entry carrying a `data` field whose blob
does not decode, together with valid flat fields, does NOT fall through
to Dialect B — `deserializeMessage` returns the Dialect A decode error
instead of an envelope. -/
theorem c6_counterexample :
    deserializeMessage ⟨"1-1",
        [("data", .blob (.cInt 0)), ("i", .str "abcd"),
         ("r", .str "1"), ("p", .str "")]⟩
      = .error (.invalidCbor "not a map")
    ∧ RedisBrokerSerialize.Deserialize
        [("i", .str "abcd"), ("r", .str "1"), ("p", .str "")]
      = .ok { requestID := "abcd", returnResult := 1, properties := "",
              timeout := 300 } := by
  refine ⟨by decide, by decide⟩

/-- C6 (amended): the consumer attempts the Dialect A decode exactly
when the `data` field is present, and on failure of that decode returns
the error without trying Dialect B; Dialect B via the broker serializer
is used only when `data` is absent.  In both dialects the broker entry
id is stamped into `redisMessageID`. -/
theorem c6_dialect_selection :
    (∀ (msg : XMessage) (c : CborVal),
      mlookup msg.values "data" = some (.blob c) →
      deserializeMessage msg
        = match DecodeTransportRequest c with
          | .ok req => .ok { req with redisMessageID := msg.id }
          | .error e => .error e)
    ∧ (∀ msg : XMessage,
      mlookup msg.values "data" = none →
      deserializeMessage msg
        = match RedisBrokerSerialize.Deserialize msg.values with
          | .ok req => .ok { req with redisMessageID := msg.id }
          | .error e => .error e) := by
  constructor
  · intro msg c h
    simp [deserializeMessage, h]
  · intro msg h
    simp [deserializeMessage, h]

/-- C6 (witness): dialect selection at concrete entries. -/
theorem c6_witness :
    (deserializeMessage ⟨"3-0", [("data", .blob (.cInt 7))]⟩
      = match DecodeTransportRequest (.cInt 7) with
        | .ok req => .ok { req with redisMessageID := "3-0" }
        | .error e => .error e)
    ∧ (deserializeMessage ⟨"3-0", [("i", .str "x"), ("r", .str "0"), ("p", .str "")]⟩
      = match RedisBrokerSerialize.Deserialize
            [("i", .str "x"), ("r", .str "0"), ("p", .str "")] with
        | .ok req => .ok { req with redisMessageID := "3-0" }
        | .error e => .error e) :=
  ⟨c6_dialect_selection.1 ⟨"3-0", [("data", .blob (.cInt 7))]⟩ (.cInt 7) rfl,
   c6_dialect_selection.2 ⟨"3-0", [("i", .str "x"), ("r", .str "0"), ("p", .str "")]⟩ rfl⟩

/-! ## Claim C7: required flat attributes -/

/-- C7: deserializing a flat field map missing any of the required keys
`i`, `r`, `p` fails with an error naming a missing required attribute
(and produces no envelope), while a flat map carrying all three as
strings of valid format — and whose optional `m`/`t`/`c` fields, if
present, are strings of valid format — is accepted. -/
theorem c7_required_attrs :
    (∀ m : FieldMap,
      (mlookup m "i" = none ∨ mlookup m "r" = none ∨ mlookup m "p" = none) →
      ∃ a, a ∈ RedisBrokerSerialize.requiredAttrs ∧ mlookup m a = none ∧
        RedisBrokerSerialize.Deserialize m = .error (.missingAttr a))
    ∧ (∀ (m : FieldMap) (si sr sp : String) (n : Int),
      mlookup m "i" = some (.str si) →
      mlookup m "r" = some (.str sr) → atoi sr = some n →
      mlookup m "p" = some (.str sp) →
      optStrOk (mlookup m "m") → optNumOk (mlookup m "t") →
      optNumOk (mlookup m "c") →
      ∃ req, RedisBrokerSerialize.Deserialize m = .ok req) := by
  constructor
  · intro m h
    by_cases hi : mlookup m "i" = none
    · refine ⟨"i", by simp [RedisBrokerSerialize.requiredAttrs], hi, ?_⟩
      simp [RedisBrokerSerialize.Deserialize, RedisBrokerSerialize.checkRequiredAttrs,
        RedisBrokerSerialize.requiredAttrs, hi, Bind.bind, Except.bind]
    · have hi' : (mlookup m "i").isSome = true := by
        rcases hmi : mlookup m "i" with _ | v
        · exact absurd hmi hi
        · rfl
      by_cases hr : mlookup m "r" = none
      · refine ⟨"r", by simp [RedisBrokerSerialize.requiredAttrs], hr, ?_⟩
        simp [RedisBrokerSerialize.Deserialize, RedisBrokerSerialize.checkRequiredAttrs,
          RedisBrokerSerialize.requiredAttrs, hi', hr, Bind.bind, Except.bind]
      · have hr' : (mlookup m "r").isSome = true := by
          rcases hmr : mlookup m "r" with _ | v
          · exact absurd hmr hr
          · rfl
        by_cases hp : mlookup m "p" = none
        · refine ⟨"p", by simp [RedisBrokerSerialize.requiredAttrs], hp, ?_⟩
          simp [RedisBrokerSerialize.Deserialize, RedisBrokerSerialize.checkRequiredAttrs,
            RedisBrokerSerialize.requiredAttrs, hi', hr', hp, Bind.bind, Except.bind]
        · rcases h with h | h | h <;> contradiction
  · intro m si sr sp n hi hr hn hp hm htl hcl
    have hchk : RedisBrokerSerialize.checkRequiredAttrs
        RedisBrokerSerialize.requiredAttrs m = .ok () := by
      simp [RedisBrokerSerialize.checkRequiredAttrs,
        RedisBrokerSerialize.requiredAttrs, hi, hr, hp]
    have hgi : RedisBrokerSerialize.getStrField m "i" "" = .ok si := by
      simp [RedisBrokerSerialize.getStrField, hi]
    have hgr : RedisBrokerSerialize.getNumField m "r" 0 = .ok n := by
      simp [RedisBrokerSerialize.getNumField, hr, hn]
    have hgp : RedisBrokerSerialize.getStrField m "p" "" = .ok sp := by
      simp [RedisBrokerSerialize.getStrField, hp]
    have hgm : ∃ v, RedisBrokerSerialize.getStrField m "m" "" = .ok v := by
      rcases hmm : mlookup m "m" with _ | gv
      · exact ⟨"", by simp [RedisBrokerSerialize.getStrField, hmm]⟩
      · rw [hmm] at hm
        cases gv with
        | str s => exact ⟨s, by simp [RedisBrokerSerialize.getStrField, hmm]⟩
        | blob c => exact absurd hm (by simp [optStrOk])
    have hgt : ∃ v, RedisBrokerSerialize.getNumField m "t" DefaultTimeout = .ok v := by
      rcases hmt : mlookup m "t" with _ | gv
      · exact ⟨DefaultTimeout, by simp [RedisBrokerSerialize.getNumField, hmt]⟩
      · rw [hmt] at htl
        cases gv with
        | str s =>
          obtain ⟨v, hv⟩ := Option.isSome_iff_exists.mp htl
          exact ⟨v, by simp [RedisBrokerSerialize.getNumField, hmt, hv]⟩
        | blob c => exact absurd htl (by simp [optNumOk])
    have hgc : ∃ v, RedisBrokerSerialize.getNumField m "c" 0 = .ok v := by
      rcases hmc : mlookup m "c" with _ | gv
      · exact ⟨0, by simp [RedisBrokerSerialize.getNumField, hmc]⟩
      · rw [hmc] at hcl
        cases gv with
        | str s =>
          obtain ⟨v, hv⟩ := Option.isSome_iff_exists.mp hcl
          exact ⟨v, by simp [RedisBrokerSerialize.getNumField, hmc, hv]⟩
        | blob c => exact absurd hcl (by simp [optNumOk])
    obtain ⟨vm, hvm⟩ := hgm
    obtain ⟨vt, hvt⟩ := hgt
    obtain ⟨vc, hvc⟩ := hgc
    refine ⟨{ redisMessageID := "", createdTimestamp := vc, requestID := si,
              message := vm, properties := sp, returnResult := n,
              timeout := vt }, ?_⟩
    simp [RedisBrokerSerialize.Deserialize, hchk, hgi, hgr, hgp, hvm, hvt, hvc,
      Bind.bind, Except.bind, Pure.pure, Except.pure]

/-- C7 (witness): a map missing `r` is rejected naming a missing
required attribute; a map with the three required string fields of
valid format is accepted. -/
theorem c7_witness :
    (∃ a, a ∈ RedisBrokerSerialize.requiredAttrs
       ∧ mlookup [("i", GoVal.str "x"), ("p", GoVal.str "")] a = none
       ∧ RedisBrokerSerialize.Deserialize [("i", GoVal.str "x"), ("p", GoVal.str "")]
           = .error (.missingAttr a))
    ∧ (∃ req, RedisBrokerSerialize.Deserialize
          [("i", GoVal.str "abcd"), ("r", GoVal.str "1"), ("p", GoVal.str "")]
        = .ok req) :=
  ⟨c7_required_attrs.1 [("i", GoVal.str "x"), ("p", GoVal.str "")]
     (Or.inr (Or.inl rfl)),
   c7_required_attrs.2 [("i", GoVal.str "abcd"), ("r", GoVal.str "1"), ("p", GoVal.str "")]
     "abcd" "1" "" 1 rfl rfl (by decide) rfl trivial trivial trivial⟩

/-! ## Claim C8: response suppression -/

/-- C8: when `Handle` returns (null, null) for any request — in
particular a `returnResult = 1` request — the bus issues no RPUSH,
EXPIRE, XDEL or waiter notification; and for a `returnResult = 0`
request it issues none of those whatever `Handle` returns. -/
theorem c8_suppression (streamName : String) (req : TransportRequest)
    (handleResult : ResponseV) (waiters : List String) :
    processMessage streamName req { data := none, error := none } waiters = []
    ∧ processMessage streamName { req with returnResult := 0 }
        handleResult waiters = [] := by
  constructor
  · by_cases h : req.returnResult = 1 <;>
      simp [processMessage, TransportRequest.NeedsResponse, h]
  · simp [processMessage, TransportRequest.NeedsResponse]

/-! ## Claim C9: Execute envelope and waiter discipline -/

/-- C9: every request `Execute` sends carries a request id that is the
32-character hex encoding of the 16 random bytes, `returnResult = 1`,
`timeout = 300`, the single-byte `0xA0` message and the publisher's
serialized payload as properties; a single-slot waiter is registered
under that request id before the XADD and is removed and closed when
`Execute` returns. -/
theorem c9_execute (streamName payload : String) (entropy : List Nat) (now : Int)
    (hlen : entropy.length = 16) :
    (Execute streamName payload entropy now).1.requestID = hexEncode entropy
    ∧ ((Execute streamName payload entropy now).1.requestID).length = 32
    ∧ (Execute streamName payload entropy now).1.returnResult = 1
    ∧ (Execute streamName payload entropy now).1.timeout = 300
    ∧ (Execute streamName payload entropy now).1.message = String.mk [Char.ofNat 0xa0]
    ∧ (Execute streamName payload entropy now).1.properties = payload
    ∧ (Execute streamName payload entropy now).2
      = [.registerWaiter (hexEncode entropy) 1,
         .xadd streamName (RedisBrokerSerialize.Serialize
           (Execute streamName payload entropy now).1),
         .awaitResponse (hexEncode entropy),
         .removeWaiter (hexEncode entropy),
         .closeWaiter (hexEncode entropy)] := by
  refine ⟨rfl, ?_, rfl, rfl, rfl, rfl, rfl⟩
  show (hexEncode entropy).length = 32
  rw [hexEncode_length, hlen]

/-- C9 (witness): the envelope shape at concrete inputs. -/
theorem c9_witness :
    (List.replicate 16 0).length = 16
    ∧ ((Execute "svc.query.Ping" "pl" (List.replicate 16 0) 7).1.requestID).length = 32
    ∧ (Execute "svc.query.Ping" "pl" (List.replicate 16 0) 7).1.returnResult = 1 :=
  ⟨by decide,
   (c9_execute "svc.query.Ping" "pl" (List.replicate 16 0) 7 (by decide)).2.1,
   (c9_execute "svc.query.Ping" "pl" (List.replicate 16 0) 7 (by decide)).2.2.1⟩

/-! ## Claim C10: the consumer cursor stays at `$` -/

/-- C10: every `XRead` of a consumer loop is invoked with the cursor
`"$"` (count 1, infinite block) — the loop never advances the cursor —
and, under the `$`-cursor read semantics, an entry appended between the
return of one `XRead` call and the issue of the next is returned by no
call at all. -/
theorem c10_cursor_never_advances :
    (∀ (streamName : String) (results : Nat → List XMessage) (n : Nat),
      xreadArgsAt streamName results n
        = { streams := [streamName, "$"], count := 1, block := 0 })
    ∧ (∀ (R : DollarRead) (e k : Nat),
      R.ret k < R.appendTime e → R.appendTime e < R.issue (k + 1) →
      ∀ j, ¬ R.returned j e) := by
  constructor
  · intro streamName results n
    simp [xreadArgsAt, cursorAt_eq]
  · intro R e k h1 h2 j hret
    rcases le_or_lt j k with hj | hj
    · have hbefore := R.returned_before_ret j e hret
      have hmono := R.ret_mono hj
      omega
    · have hafter := R.returned_after_issue j e hret
      have hmono := R.issue_mono (show k + 1 ≤ j from hj)
      omega

/-- C10 (witness): the cursor property at a concrete call index and the
skip property at a concrete timing model. -/
theorem c10_witness :
    xreadArgsAt "svc" (fun _ => []) 5
      = { streams := ["svc", "$"], count := 1, block := 0 }
    ∧ (∀ j, ¬ dollarReadModel.returned j 2) :=
  ⟨c10_cursor_never_advances.1 "svc" (fun _ => []) 5,
   fun j => c10_cursor_never_advances.2 dollarReadModel 2 0 (by decide) (by decide) j⟩

end Toolkit
